import Mathlib

/-!
Shallow embedding of the image transformation pipeline of this repository:
the stage functions of `image_processing.py` (remove_white_background,
enhance_colors, create_depth_map, create_3d_effect, full_2d_to_3d_pipeline)
and the slider compositor of `image_tools.py`
(create_before_after_comparison), together with the Pillow library
operations those files invoke: mode conversion, ImageEnhance.Color,
Image.blend, ImageFilter 3x3 kernel filtering, Image.crop, Image.paste
(masked and unmasked) and ImageDraw.rectangle.

Channel values are 8-bit bytes, modelled as `Fin 256`.  An image is a mode,
a width, a height and a total pixel function; operations are pointwise.
Library calls that can raise a Python exception are modelled in `Except`.
The Pillow behaviours relied on are noted at each definition.
-/

namespace ImgPipe

/-- Pillow image modes used by the repository code.  By convention an `L`
image stores its single gray band replicated in `r`, `g`, `b` with
`a = 255`, and an `RGB` image keeps `a = 255` (Pillow stores a padding
byte there whose value is never observable: conversion to RGBA always
fills alpha with 255). -/
inductive Mode
  | L
  | RGB
  | RGBA
deriving DecidableEq

/-- One RGBA pixel, each channel an unsigned byte. -/
structure Pixel where
  r : Fin 256
  g : Fin 256
  b : Fin 256
  a : Fin 256
deriving DecidableEq

/-- An image: a mode, dimensions, and a total pixel function
(row-major raster; only coordinates with `x < width`, `y < height` are
meaningful). -/
structure Img where
  mode : Mode
  width : Nat
  height : Nat
  pix : Nat → Nat → Pixel

/-- Clamp an integer into a byte, truncating as Pillow's `clip8` does.
Exact for the integer-valued 3x3 kernel sums used here. -/
def byteOfInt (i : Int) : Fin 256 :=
  if i ≤ 0 then 0
  else if h : 255 ≤ i then 255
  else ⟨i.toNat, by omega⟩

/-- Clamp a rational into a byte: at most 0 gives 0, at least 255 gives
255, otherwise truncate toward zero (equals the floor on the positive
range).  This is the arithmetic of Pillow's `Blend.c` for both the
interpolation and the extrapolation branch. -/
def byteOfRat (q : ℚ) : Fin 256 :=
  if q ≤ 0 then 0
  else if h : 255 ≤ q then 255
  else ⟨(⌊q⌋).toNat, by
    have h1 : (⌊q⌋ : ℚ) ≤ q := Int.floor_le q
    have h2 : q < 255 := lt_of_not_le h
    have h4 : ⌊q⌋ < (255 : ℤ) := by exact_mod_cast lt_of_le_of_lt h1 h2
    omega⟩

/-- ITU-R 601-2 luma used by Pillow's convert to "L" / "LA":
`L = (19595 R + 38470 G + 7471 B + 0x8000) >> 16`. -/
def lumin (p : Pixel) : Fin 256 :=
  ⟨(p.r.val * 19595 + p.g.val * 38470 + p.b.val * 7471 + 32768) / 65536, by
    have h1 := p.r.isLt
    have h2 := p.g.isLt
    have h3 := p.b.isLt
    omega⟩

/-- Gray value of a pixel as Pillow's convert to "L" computes it
(for an `L` image the stored band itself, otherwise the luma). -/
def grayOf (m : Mode) (p : Pixel) : Fin 256 :=
  match m with
  | Mode.L => p.r
  | _ => lumin p

/-- Pixel-level mode conversion, Pillow `Image.convert` semantics:
promotion fills alpha with 255, demotion to RGB drops alpha, conversion
to L takes the luma. -/
def toModePixel (dst src : Mode) (p : Pixel) : Pixel :=
  match dst with
  | Mode.RGBA =>
    match src with
    | Mode.RGBA => p
    | Mode.RGB => { r := p.r, g := p.g, b := p.b, a := 255 }
    | Mode.L => { r := p.r, g := p.r, b := p.r, a := 255 }
  | Mode.RGB =>
    match src with
    | Mode.RGB => p
    | Mode.RGBA => { r := p.r, g := p.g, b := p.b, a := 255 }
    | Mode.L => { r := p.r, g := p.r, b := p.r, a := 255 }
  | Mode.L =>
    match src with
    | Mode.L => p
    | _ =>
      let v := grayOf src p
      { r := v, g := v, b := v, a := 255 }

/-- The fill value Pillow's crop uses outside the source image: zero in
every band (so alpha 0 for RGBA, black for RGB and L). -/
def zeroPixel (m : Mode) : Pixel :=
  match m with
  | Mode.RGBA => { r := 0, g := 0, b := 0, a := 0 }
  | _ => { r := 0, g := 0, b := 0, a := 255 }

/-- Re-impose the mode convention on a computed pixel (RGB and L images
keep `a = 255`). -/
def mkForMode (m : Mode) (p : Pixel) : Pixel :=
  match m with
  | Mode.RGBA => p
  | _ => { r := p.r, g := p.g, b := p.b, a := 255 }

/-- The per-pixel body of `remove_white_background`: the numpy mask
`(red > 240) & (green > 240) & (blue > 240)` selects a pixel, and
selected pixels get RGB `(0,0,0)` and alpha `0`. -/
def keyPixel (p : Pixel) : Pixel :=
  if 240 < p.r.val ∧ 240 < p.g.val ∧ 240 < p.b.val then
    { r := 0, g := 0, b := 0, a := 0 }
  else p

/-- `image_processing.remove_white_background`: convert to RGBA, then
key every near-white pixel to transparent black. -/
def remove_white_background (im : Img) : Img :=
  { mode := Mode.RGBA, width := im.width, height := im.height,
    pix := fun x y => keyPixel (toModePixel Mode.RGBA im.mode (im.pix x y)) }

/-- One channel of Pillow's `Image.blend(im1, im2, alpha)`:
`out = in1 + alpha * (in2 - in1)`, clipped and truncated as in
`Blend.c`. -/
def blendChannel (alpha : ℚ) (c1 c2 : Fin 256) : Fin 256 :=
  byteOfRat ((c1.val : ℚ) + alpha * ((c2.val : ℚ) - (c1.val : ℚ)))

/-- Pillow `Image.blend`, per pixel (all bands, alpha included). -/
def blendPixel (alpha : ℚ) (p1 p2 : Pixel) : Pixel :=
  { r := blendChannel alpha p1.r p2.r, g := blendChannel alpha p1.g p2.g,
    b := blendChannel alpha p1.b p2.b, a := blendChannel alpha p1.a p2.a }

/-- Pillow `Image.blend` on whole images (the call sites guarantee equal
modes and sizes, as `Image.blend` requires). -/
def blendImg (im1 im2 : Img) (alpha : ℚ) : Img :=
  { mode := im1.mode, width := im1.width, height := im1.height,
    pix := fun x y => blendPixel alpha (im1.pix x y) (im2.pix x y) }

/-- The degenerate image of `ImageEnhance.Color`: the image converted to
the intermediate mode ("LA" when an alpha band is present, else "L") and
back, so RGB collapses to its luma and RGBA additionally keeps its own
alpha band. -/
def degeneratePixel (m : Mode) (p : Pixel) : Pixel :=
  match m with
  | Mode.L => p
  | Mode.RGB =>
    let v := lumin p
    { r := v, g := v, b := v, a := 255 }
  | Mode.RGBA =>
    let v := lumin p
    { r := v, g := v, b := v, a := p.a }

/-- `ImageEnhance.Color(image).enhance(factor)`:
`Image.blend(degenerate, image, factor)`. -/
def color_enhance (im : Img) (factor : ℚ) : Img :=
  blendImg
    { mode := im.mode, width := im.width, height := im.height,
      pix := fun x y => degeneratePixel im.mode (im.pix x y) }
    im factor

/-- `image_processing.enhance_colors`: color enhancement with the
hard-coded factor 1.5. -/
def enhance_colors (im : Img) : Img :=
  color_enhance im (3 / 2)

/-- `ImageOps.grayscale` = `image.convert("L")`. -/
def grayscale (im : Img) : Img :=
  { mode := Mode.L, width := im.width, height := im.height,
    pix := fun x y =>
      let v := grayOf im.mode (im.pix x y)
      { r := v, g := v, b := v, a := 255 } }

/-- Clamp a (possibly negative) sample index into `[0, n-1]`,
the replicate-edge extension used for the blur. -/
def clampIdx (i : Int) (n : Nat) : Nat :=
  if i ≤ 0 then 0
  else if (n : Int) - 1 ≤ i then n - 1
  else i.toNat

/-- Average of the eleven samples `f (c-5) .. f (c+5)`: one pass of a
radius-5 box blur along a line. -/
def blurLine (f : Int → Fin 256) (c : Int) : Fin 256 :=
  ⟨((f (c - 5)).val + (f (c - 4)).val + (f (c - 3)).val + (f (c - 2)).val +
    (f (c - 1)).val + (f c).val + (f (c + 1)).val + (f (c + 2)).val +
    (f (c + 3)).val + (f (c + 4)).val + (f (c + 5)).val) / 11, by
    have h1 := (f (c - 5)).isLt
    have h2 := (f (c - 4)).isLt
    have h3 := (f (c - 3)).isLt
    have h4 := (f (c - 2)).isLt
    have h5 := (f (c - 1)).isLt
    have h6 := (f c).isLt
    have h7 := (f (c + 1)).isLt
    have h8 := (f (c + 2)).isLt
    have h9 := (f (c + 3)).isLt
    have h10 := (f (c + 4)).isLt
    have h11 := (f (c + 5)).isLt
    omega⟩

/-- `ImageFilter.GaussianBlur(radius=5)` on a single-band image.  Pillow
realises the Gaussian as repeated box blurs; it is modelled here as one
separable radius-5 box-blur pass with replicate-edge extension.  It
preserves mode and dimensions, which is all later development relies
on. -/
def gaussian_blur (im : Img) : Img :=
  let horiz : Img :=
    { mode := im.mode, width := im.width, height := im.height,
      pix := fun x y =>
        let v := blurLine (fun i => (im.pix (clampIdx i im.width) y).r) (x : Int)
        { r := v, g := v, b := v, a := 255 } }
  { mode := im.mode, width := im.width, height := im.height,
    pix := fun x y =>
      let v := blurLine (fun j => (horiz.pix x (clampIdx j im.height)).r) (y : Int)
      { r := v, g := v, b := v, a := 255 } }

/-- `image_processing.create_depth_map`: grayscale then Gaussian blur of
radius 5. -/
def create_depth_map (im : Img) : Img :=
  gaussian_blur (grayscale im)

/-- One channel of a 3x3 kernel correlation at `(x, y)`:
`offset + sum of kernel weight times sample` (scale 1), clipped to a
byte, exactly Pillow's `ImagingFilter` for an integer kernel. -/
def convChan (off k0 k1 k2 k3 k4 k5 k6 k7 k8 : Int) (f : Int → Int → Nat)
    (x y : Int) : Fin 256 :=
  byteOfInt (off +
    k0 * (f (x - 1) (y - 1) : Int) + k1 * (f x (y - 1) : Int) + k2 * (f (x + 1) (y - 1) : Int) +
    k3 * (f (x - 1) y : Int) + k4 * (f x y : Int) + k5 * (f (x + 1) y : Int) +
    k6 * (f (x - 1) (y + 1) : Int) + k7 * (f x (y + 1) : Int) + k8 * (f (x + 1) (y + 1) : Int))

/-- Pillow `image.filter` with a 3x3 built-in kernel: every band of
every pixel is filtered, the alpha band included; border pixels are
copied from the input unfiltered, as `ImagingFilter` does. -/
def filter3x3 (off k0 k1 k2 k3 k4 k5 k6 k7 k8 : Int) (im : Img) : Img :=
  { mode := im.mode, width := im.width, height := im.height,
    pix := fun x y =>
      if x = 0 ∨ y = 0 ∨ im.width ≤ x + 1 ∨ im.height ≤ y + 1 then im.pix x y
      else
        { r := convChan off k0 k1 k2 k3 k4 k5 k6 k7 k8
            (fun i j => (im.pix i.toNat j.toNat).r.val) (x : Int) (y : Int),
          g := convChan off k0 k1 k2 k3 k4 k5 k6 k7 k8
            (fun i j => (im.pix i.toNat j.toNat).g.val) (x : Int) (y : Int),
          b := convChan off k0 k1 k2 k3 k4 k5 k6 k7 k8
            (fun i j => (im.pix i.toNat j.toNat).b.val) (x : Int) (y : Int),
          a := convChan off k0 k1 k2 k3 k4 k5 k6 k7 k8
            (fun i j => (im.pix i.toNat j.toNat).a.val) (x : Int) (y : Int) } }

/-- `image_processing.create_3d_effect`: blend of the EMBOSS filter
(kernel `(-1,0,0, 0,1,0, 0,0,0)`, offset 128) and the FIND_EDGES filter
(kernel `(-1,-1,-1, -1,8,-1, -1,-1,-1)`, offset 0) with alpha 0.5. -/
def create_3d_effect (im : Img) : Img :=
  blendImg
    (filter3x3 128 (-1) 0 0 0 1 0 0 0 0 im)
    (filter3x3 0 (-1) (-1) (-1) (-1) 8 (-1) (-1) (-1) (-1) im)
    (1 / 2)

/-- `image_processing.full_2d_to_3d_pipeline`: background removal, color
enhancement, then depth map and 3d effect from the enhanced image. -/
def full_2d_to_3d_pipeline (im : Img) : Img × Img × Img :=
  let cleaned := remove_white_background im
  let enhanced := enhance_colors cleaned
  let depth := create_depth_map enhanced
  let final_3d := create_3d_effect enhanced
  (cleaned, depth, final_3d)

/-- The Python exceptions the modelled Pillow calls can raise, by their
message: the two coordinate checks of `Image.crop`, and the
"images do not match" ValueError of `Image.paste` when a mask does not
have the size of the pasted image. -/
inductive PILError
  | cropRightLessThanLeft
  | cropLowerLessThanUpper
  | imagesDoNotMatch
deriving DecidableEq

/-- Pillow `Image.resize` to `(w, h)`: a same-size resize returns a
plain copy; otherwise the resample is modelled as nearest-neighbour
(nothing later depends on resampled pixel values, only on the output
dimensions). -/
def resize (im : Img) (w h : Nat) : Img :=
  if im.width = w ∧ im.height = h then im
  else
    { mode := im.mode, width := w, height := h,
      pix := fun x y => im.pix (x * im.width / w) (y * im.height / h) }

/-- Pillow `Image.crop (x0, y0, x1, y1)`: raises ValueError when
`x1 < x0` or `y1 < y0`; otherwise returns an `(x1-x0) x (y1-y0)` image,
filling pixels outside the source with zero in every band. -/
def crop (im : Img) (x0 y0 x1 y1 : Int) : Except PILError Img :=
  if x1 < x0 then Except.error PILError.cropRightLessThanLeft
  else if y1 < y0 then Except.error PILError.cropLowerLessThanUpper
  else Except.ok
    { mode := im.mode, width := (x1 - x0).toNat, height := (y1 - y0).toNat,
      pix := fun x y =>
        if 0 ≤ x0 + (x : Int) ∧ x0 + (x : Int) < (im.width : Int) ∧
            0 ≤ y0 + (y : Int) ∧ y0 + (y : Int) < (im.height : Int) then
          im.pix (x0 + (x : Int)).toNat (y0 + (y : Int)).toNat
        else zeroPixel im.mode }

/-- A constant image, as `Image.new` creates (default fill 0). -/
def solidImg (m : Mode) (w h : Nat) (p : Pixel) : Img :=
  { mode := m, width := w, height := h, pix := fun _ _ => p }

def blackPx : Pixel := { r := 0, g := 0, b := 0, a := 255 }

/-- Pillow `Image.paste` without a mask, at offset `(px, py)`: pixels of
the destination covered by the source box are replaced by the source
pixel converted to the destination mode (pasting RGBA onto RGB keeps the
RGB bands and drops alpha); the box is clipped to the destination. -/
def paste (dst src : Img) (px py : Int) : Img :=
  { mode := dst.mode, width := dst.width, height := dst.height,
    pix := fun x y =>
      if px ≤ (x : Int) ∧ (x : Int) < px + (src.width : Int) ∧
          py ≤ (y : Int) ∧ (y : Int) < py + (src.height : Int) then
        toModePixel dst.mode src.mode
          (src.pix ((x : Int) - px).toNat ((y : Int) - py).toNat)
      else dst.pix x y }

/-- Pillow's rounding division by 255 (`MULDIV255`):
`(t + 128 + (t + 128) >> 8) >> 8`. -/
def mulDiv255 (t : Nat) : Nat :=
  (t + 128 + (t + 128) / 256) / 256

/-- One channel of a masked paste: mask weight 255 takes the pasted
pixel, 0 keeps the destination, intermediate weights blend
(`Paste.c` formula `MULDIV255(in1, 255-m) + MULDIV255(in2, m)`). -/
def maskChannel (m c1 c2 : Fin 256) : Fin 256 :=
  ⟨mulDiv255 (c1.val * (255 - m.val)) + mulDiv255 (c2.val * m.val), by
    have hm := m.isLt
    have h1 := c1.isLt
    have h2 := c2.isLt
    have ha : mulDiv255 (c1.val * (255 - m.val)) ≤ 255 - m.val := by
      have hle : c1.val * (255 - m.val) ≤ 255 * (255 - m.val) :=
        Nat.mul_le_mul_right _ (by omega)
      unfold mulDiv255
      omega
    have hb : mulDiv255 (c2.val * m.val) ≤ m.val := by
      have hle : c2.val * m.val ≤ 255 * m.val :=
        Nat.mul_le_mul_right _ (by omega)
      unfold mulDiv255
      omega
    omega⟩

/-- Pillow `Image.paste` with a mask image.  `ImagingPaste` raises the
ValueError "images do not match" unless the mask has exactly the size of
the pasted image; otherwise each covered destination pixel is blended
with the converted source pixel under the mask weight. -/
def pasteMask (dst src : Img) (px py : Int) (mask : Img) : Except PILError Img :=
  if mask.width = src.width ∧ mask.height = src.height then
    Except.ok
      { mode := dst.mode, width := dst.width, height := dst.height,
        pix := fun x y =>
          if px ≤ (x : Int) ∧ (x : Int) < px + (src.width : Int) ∧
              py ≤ (y : Int) ∧ (y : Int) < py + (src.height : Int) then
            let sx := ((x : Int) - px).toNat
            let sy := ((y : Int) - py).toNat
            let m := (mask.pix sx sy).r
            let q := toModePixel dst.mode src.mode (src.pix sx sy)
            let p := dst.pix x y
            mkForMode dst.mode
              { r := maskChannel m p.r q.r, g := maskChannel m p.g q.g,
                b := maskChannel m p.b q.b, a := maskChannel m p.a q.a }
          else dst.pix x y }
  else Except.error PILError.imagesDoNotMatch

/-- `ImageDraw.rectangle ([x0, y0, x1, y1], fill)`: fills the rectangle
inclusive of both corner points, clipped to the image. -/
def drawRectangle (im : Img) (x0 y0 x1 y1 : Int) (fill : Fin 256) : Img :=
  { mode := im.mode, width := im.width, height := im.height,
    pix := fun x y =>
      if x0 ≤ (x : Int) ∧ (x : Int) ≤ x1 ∧ y0 ≤ (y : Int) ∧ (y : Int) ≤ y1 then
        { r := fill, g := fill, b := fill, a := 255 }
      else im.pix x y }

/-- `image_tools.create_before_after_comparison`: resize `after` to
`before`'s size, crop its first `slider_position` columns, paste
`before` onto a new RGB canvas, draw the slider mask, and paste the crop
through the mask.  The crop raises for a negative position; the masked
paste raises "images do not match" whenever the full-canvas mask differs
in size from the cropped region. -/
def create_before_after_comparison (before_img after_img : Img)
    (slider_position : Int) : Except PILError Img :=
  match crop (resize after_img before_img.width before_img.height) 0 0
      slider_position (before_img.height : Int) with
  | Except.error e => Except.error e
  | Except.ok cropped =>
      pasteMask
        (paste (solidImg Mode.RGB before_img.width before_img.height blackPx)
          before_img 0 0)
        cropped 0 0
        (drawRectangle (solidImg Mode.L before_img.width before_img.height blackPx)
          0 0 slider_position (before_img.height : Int) 255)

/-- Observable equality of images: same mode, same dimensions, and the
same pixel at every in-range coordinate. -/
def Img.Equiv (a b : Img) : Prop :=
  a.mode = b.mode ∧ a.width = b.width ∧ a.height = b.height ∧
    ∀ x, x < a.width → ∀ y, y < a.height → a.pix x y = b.pix x y

instance instDecidableImgEquiv (a b : Img) : Decidable (Img.Equiv a b) :=
  decidable_of_iff
    (a.mode = b.mode ∧ a.width = b.width ∧ a.height = b.height ∧
      ∀ x, x < a.width → ∀ y, y < a.height → a.pix x y = b.pix x y)
    Iff.rfl

/-- A fallible result is a returned image observably equal to `b`. -/
def okEquiv (r : Except PILError Img) (b : Img) : Prop :=
  match r with
  | Except.ok im => Img.Equiv im b
  | Except.error _ => False

instance instDecidableOkEquiv (r : Except PILError Img) (b : Img) :
    Decidable (okEquiv r b) :=
  match r with
  | Except.ok im => inferInstanceAs (Decidable (Img.Equiv im b))
  | Except.error _ => isFalse (fun h => h)

/-- A fallible result returned an image (did not raise). -/
def isOk (r : Except PILError Img) : Prop :=
  match r with
  | Except.ok _ => True
  | Except.error _ => False

def redPx : Pixel := { r := 255, g := 0, b := 0, a := 255 }

def bluePx : Pixel := { r := 0, g := 0, b := 255, a := 255 }

/-- Solid red 10x10 RGB image (the spec's `before`). -/
def red10 : Img := solidImg Mode.RGB 10 10 redPx

/-- Solid blue 10x10 RGB image (the spec's `after`). -/
def blue10 : Img := solidImg Mode.RGB 10 10 bluePx

/-- Solid blue 1x1 RGB image. -/
def blue1 : Img := solidImg Mode.RGB 1 1 bluePx

/-- A 1x1 RGBA image with a non-opaque, non-white pixel. -/
def rgbaSample : Img := solidImg Mode.RGBA 1 1 { r := 10, g := 20, b := 30, a := 40 }

/-- A 1x1 RGBA pure-white opaque image. -/
def white1 : Img := solidImg Mode.RGBA 1 1 { r := 255, g := 255, b := 255, a := 255 }

/-- A 1x1 RGBA image exactly at the keying threshold. -/
def gray240 : Img := solidImg Mode.RGBA 1 1 { r := 240, g := 240, b := 240, a := 255 }

/-- A 3x3 fully opaque RGBA image. -/
def opq3 : Img := solidImg Mode.RGBA 3 3 { r := 100, g := 150, b := 200, a := 255 }

/-- A 1x1 RGBA transparent-black image. -/
def clear1 : Img := solidImg Mode.RGBA 1 1 { r := 0, g := 0, b := 0, a := 0 }

/-- The 10x10 image the spec expects from a split at 5: red columns
0..4, blue columns 5..9. -/
def splitExpected : Img :=
  { mode := Mode.RGB, width := 10, height := 10,
    pix := fun x _ => if x < 5 then redPx else bluePx }

/-- Extensionality for images: equal components give equal images. -/
theorem imgExt : ∀ {a b : Img}, a.mode = b.mode → a.width = b.width →
    a.height = b.height → a.pix = b.pix → a = b
  | ⟨_, _, _, _⟩, ⟨_, _, _, _⟩, rfl, rfl, rfl, rfl => rfl

/-- Clamping a byte-valued rational is the identity. -/
theorem byteOfRat_natCast (c : Fin 256) : byteOfRat (c.val : ℚ) = c := by
  have hc := c.isLt
  unfold byteOfRat
  split
  · next hle =>
    have h0 : c.val = 0 := by exact_mod_cast le_antisymm hle (by positivity)
    apply Fin.ext
    simp [h0]
  · next hgt =>
    split
    · next hge =>
      have h255 : c.val = 255 := by
        have : (255 : ℕ) ≤ c.val := by exact_mod_cast hge
        omega
      apply Fin.ext
      rw [h255]
      decide
    · next hlt =>
      apply Fin.ext
      show (⌊((c.val : ℕ) : ℚ)⌋).toNat = c.val
      rw [Int.floor_natCast, Int.toNat_natCast]

/-- Blending with factor 1 returns the second image's channel. -/
theorem blendChannel_one (d c : Fin 256) : blendChannel 1 d c = c := by
  have h : ((d.val : ℚ) + 1 * ((c.val : ℚ) - (d.val : ℚ))) = (c.val : ℚ) := by ring
  unfold blendChannel
  rw [h]
  exact byteOfRat_natCast c

/-- Blending a channel with itself is the identity, for any factor. -/
theorem blendChannel_self (alpha : ℚ) (c : Fin 256) : blendChannel alpha c c = c := by
  have h : ((c.val : ℚ) + alpha * ((c.val : ℚ) - (c.val : ℚ))) = (c.val : ℚ) := by ring
  unfold blendChannel
  rw [h]
  exact byteOfRat_natCast c

/-- Blending with factor 1/2 averages the two channels (floor). -/
theorem blendChannel_half_val (c1 c2 : Fin 256) :
    (blendChannel (1 / 2) c1 c2).val = (c1.val + c2.val) / 2 := by
  have h1 := c1.isLt
  have h2 := c2.isLt
  have hq : (c1.val : ℚ) + 1 / 2 * ((c2.val : ℚ) - (c1.val : ℚ))
      = ((c1.val + c2.val : ℕ) : ℚ) / ((2 : ℕ) : ℚ) := by push_cast; ring
  have h2q : (0 : ℚ) < ((2 : ℕ) : ℚ) := by norm_num
  unfold blendChannel byteOfRat
  rw [hq]
  split
  · next hle =>
    have hle2 : ((c1.val + c2.val : ℕ) : ℚ) ≤ 0 := by
      have := (div_le_iff₀ h2q).mp hle
      simpa using this
    have hn : c1.val + c2.val = 0 := by
      exact_mod_cast le_antisymm hle2 (by positivity)
    simp [hn]
  · next hgt =>
    split
    · next hge =>
      have hge2 : (255 : ℚ) * ((2 : ℕ) : ℚ) ≤ ((c1.val + c2.val : ℕ) : ℚ) :=
        (le_div_iff₀ h2q).mp hge
      have hn : c1.val + c2.val = 510 := by
        have h510 : (510 : ℕ) ≤ c1.val + c2.val := by
          have : ((510 : ℕ) : ℚ) ≤ ((c1.val + c2.val : ℕ) : ℚ) := by
            push_cast at hge2 ⊢
            linarith
          exact_mod_cast this
        omega
      rw [hn]
      decide
    · next hlt =>
      show (⌊((c1.val + c2.val : ℕ) : ℚ) / ((2 : ℕ) : ℚ)⌋).toNat = (c1.val + c2.val) / 2
      rw [Rat.floor_natCast_div_natCast]
      omega

/-- A successful masked paste keeps the destination mode and size. -/
theorem pasteMask_ok (dst src : Img) (px py : Int) (mask : Img) (im : Img)
    (h : pasteMask dst src px py mask = Except.ok im) :
    im.mode = dst.mode ∧ im.width = dst.width ∧ im.height = dst.height := by
  unfold pasteMask at h
  split at h
  · cases h
    exact ⟨rfl, rfl, rfl⟩
  · cases h

/-- Keying is idempotent on pixels: a keyed pixel is transparent black,
which is not near-white, so a second keying leaves it alone. -/
theorem keyPixel_idem (p : Pixel) : keyPixel (keyPixel p) = keyPixel p := by
  by_cases hw : 240 < p.r.val ∧ 240 < p.g.val ∧ 240 < p.b.val
  · have h1 : keyPixel p = { r := 0, g := 0, b := 0, a := 0 } := if_pos hw
    rw [h1]
    rfl
  · have h1 : keyPixel p = p := if_neg hw
    rw [h1]
    exact h1

/-- C1 (counterexample): the claim that `compare_slider(before, after, 0)`
returns `before` exactly is false for the 10x10 solid red `before` and
solid blue `after`: the call returns no image at all (the masked paste
raises, because the full-canvas 10x10 mask does not match the 0x10
cropped region). -/
theorem c1_counterexample :
    ¬ (okEquiv (create_before_after_comparison red10 blue10 0) red10 ∧
       okEquiv (create_before_after_comparison red10 blue10 5) splitExpected ∧
       okEquiv (create_before_after_comparison red10 blue10 10) blue10) :=
  fun h => h.1

/-- C1 (amended): for the 10x10 solid red `before` and solid blue `after`,
`compare_slider(before, after, 10)` returns `after` exactly (as an RGB
image), while `compare_slider(before, after, 0)` and
`compare_slider(before, after, 5)` return no image: both raise Pillow's
"images do not match" ValueError from the masked paste, whose full-canvas
mask differs in size from the `split_x`-column crop whenever
`split_x` differs from the width. -/
theorem c1_slider_boundary :
    okEquiv (create_before_after_comparison red10 blue10 10) blue10 ∧
    create_before_after_comparison red10 blue10 0 =
      Except.error PILError.imagesDoNotMatch ∧
    create_before_after_comparison red10 blue10 5 =
      Except.error PILError.imagesDoNotMatch :=
  ⟨by decide, rfl, rfl⟩

/-- C2 (counterexample): the two invalid-split calls do not fail with one
typed InvalidSplit error raised by an up-front bound check: on the 10x10
inputs, `split_x = -1` and `split_x = width + 1` fail with two different
generic Pillow ValueErrors, raised by different operations deep inside
the computation (the crop coordinate check, and the masked paste size
check after the whole canvas has been assembled). -/
theorem c2_counterexample :
    create_before_after_comparison red10 blue10 (-1) =
      Except.error PILError.cropRightLessThanLeft ∧
    create_before_after_comparison red10 blue10 11 =
      Except.error PILError.imagesDoNotMatch ∧
    PILError.cropRightLessThanLeft ≠ PILError.imagesDoNotMatch :=
  ⟨rfl, rfl, by decide⟩

/-- C2 (amended): `compare_slider(before, after, split_x)` fails and
returns no image whenever `split_x` is negative (Pillow `crop` raises
its coordinate ValueError) and whenever `split_x` exceeds `before`'s
width (the masked paste raises "images do not match"); the errors are
generic Pillow ValueErrors raised mid-computation, not a typed
InvalidSplit detected at the stage boundary. -/
theorem c2_invalid_split :
    ∀ (b a : Img) (s : Int),
      (s < 0 → create_before_after_comparison b a s =
        Except.error PILError.cropRightLessThanLeft) ∧
      ((b.width : Int) < s → create_before_after_comparison b a s =
        Except.error PILError.imagesDoNotMatch) := by
  intro b a s
  constructor
  · intro hs
    unfold create_before_after_comparison crop
    rw [if_pos hs]
  · intro hw
    have hwnn : (0 : Int) ≤ (b.width : Int) := Int.natCast_nonneg _
    have hs0 : ¬ s < 0 := by omega
    have hh0 : ¬ (b.height : Int) < 0 := by
      have := Int.natCast_nonneg b.height
      omega
    unfold create_before_after_comparison crop
    rw [if_neg hs0, if_neg hh0]
    show pasteMask _ _ 0 0 _ = _
    unfold pasteMask
    split
    · next hcond =>
      exfalso
      obtain ⟨hx, -⟩ := hcond
      dsimp only [drawRectangle, solidImg] at hx
      omega
    · rfl

/-- C2 (witness): instantiation of the amended claim at the 10x10 red and
blue inputs, at split -1 and split 11. -/
theorem c2_witness :
    ((-1 : Int) < 0 ∧ create_before_after_comparison red10 blue10 (-1) =
      Except.error PILError.cropRightLessThanLeft) ∧
    ((red10.width : Int) < 11 ∧ create_before_after_comparison red10 blue10 11 =
      Except.error PILError.imagesDoNotMatch) :=
  ⟨⟨by decide, (c2_invalid_split red10 blue10 (-1)).1 (by decide)⟩,
   ⟨by decide, (c2_invalid_split red10 blue10 11).2 (by decide)⟩⟩

/-- C3: `remove_white_background` maps every pixel with R, G and B all
strictly above 240 to transparent black `(0,0,0,0)` and leaves every
other pixel of an RGBA image unchanged, alpha included; a 1x1
`(255,255,255,255)` image becomes `(0,0,0,0)` and a 1x1
`(240,240,240,255)` image is returned unchanged. -/
theorem c3_keyer_threshold :
    (∀ im, im.mode = Mode.RGBA →
      (∀ x y, (240 < (im.pix x y).r.val ∧ 240 < (im.pix x y).g.val ∧
          240 < (im.pix x y).b.val) →
        (remove_white_background im).pix x y = { r := 0, g := 0, b := 0, a := 0 }) ∧
      (∀ x y, ¬ (240 < (im.pix x y).r.val ∧ 240 < (im.pix x y).g.val ∧
          240 < (im.pix x y).b.val) →
        (remove_white_background im).pix x y = im.pix x y)) ∧
    remove_white_background white1 = clear1 ∧
    remove_white_background gray240 = gray240 := by
  refine ⟨fun im hm => ⟨fun x y hw => ?_, fun x y hw => ?_⟩, ?_, ?_⟩
  · show keyPixel (toModePixel Mode.RGBA im.mode (im.pix x y)) = _
    rw [hm]
    show keyPixel (im.pix x y) = _
    exact if_pos hw
  · show keyPixel (toModePixel Mode.RGBA im.mode (im.pix x y)) = _
    rw [hm]
    show keyPixel (im.pix x y) = _
    exact if_neg hw
  · apply imgExt rfl rfl rfl
    funext x y
    rfl
  · apply imgExt rfl rfl rfl
    funext x y
    rfl

/-- C3 (witness): the general statement instantiated at the 1x1 threshold
image `(240,240,240,255)`, whose pixel is not strictly above the
threshold and passes through unchanged. -/
theorem c3_witness :
    gray240.mode = Mode.RGBA ∧
    ¬ (240 < (gray240.pix 0 0).r.val ∧ 240 < (gray240.pix 0 0).g.val ∧
        240 < (gray240.pix 0 0).b.val) ∧
    (remove_white_background gray240).pix 0 0 = gray240.pix 0 0 :=
  ⟨rfl, by decide, (c3_keyer_threshold.1 gray240 rfl).2 0 0 (by decide)⟩

/-- C4: `full_2d_to_3d_pipeline` is exactly the fixed composition
`cleaned = remove_white_background input`,
`enhanced = enhance_colors cleaned`, `depth = create_depth_map enhanced`,
`final3d = create_3d_effect enhanced`, returning
`(cleaned, depth, final3d)`. -/
theorem c4_pipeline_composition :
    ∀ im, full_2d_to_3d_pipeline im =
      (remove_white_background im,
       create_depth_map (enhance_colors (remove_white_background im)),
       create_3d_effect (enhance_colors (remove_white_background im))) :=
  fun _ => rfl

/-- C5: `remove_white_background` is idempotent: keyed pixels become
transparent black, which fails the near-white test, and all other pixels
are unchanged, so a second application changes nothing. -/
theorem c5_keyer_idempotent :
    ∀ im, remove_white_background (remove_white_background im) =
      remove_white_background im := by
  intro im
  refine imgExt rfl rfl rfl ?_
  funext x y
  show keyPixel (toModePixel Mode.RGBA Mode.RGBA
      (keyPixel (toModePixel Mode.RGBA im.mode (im.pix x y)))) = _
  show keyPixel (keyPixel (toModePixel Mode.RGBA im.mode (im.pix x y))) = _
  exact keyPixel_idem _

/-- C6: color enhancement with factor 1.0 is the identity on every
image, pixel for pixel, alpha included. -/
theorem c6_enhance_identity : ∀ im, color_enhance im 1 = im := by
  intro im
  refine imgExt rfl rfl rfl ?_
  funext x y
  show blendPixel 1 (degeneratePixel im.mode (im.pix x y)) (im.pix x y) = im.pix x y
  unfold blendPixel
  rw [blendChannel_one, blendChannel_one, blendChannel_one, blendChannel_one]

/-- C7: `enhance_colors` (factor 1.5) leaves the alpha channel of every
pixel of an RGBA image unchanged and preserves the image dimensions;
only the color channels are rescaled. -/
theorem c7_enhance_alpha_preserved :
    ∀ im, im.mode = Mode.RGBA →
      (enhance_colors im).width = im.width ∧
      (enhance_colors im).height = im.height ∧
      ∀ x y, ((enhance_colors im).pix x y).a = (im.pix x y).a := by
  intro im hm
  refine ⟨rfl, rfl, fun x y => ?_⟩
  show (blendPixel (3 / 2) (degeneratePixel im.mode (im.pix x y)) (im.pix x y)).a = _
  rw [hm]
  show blendChannel (3 / 2) (im.pix x y).a (im.pix x y).a = _
  exact blendChannel_self _ _

/-- C7 (witness): alpha preservation instantiated at a concrete 1x1 RGBA
image with alpha 40. -/
theorem c7_witness :
    rgbaSample.mode = Mode.RGBA ∧
    ((enhance_colors rgbaSample).pix 0 0).a = (rgbaSample.pix 0 0).a :=
  ⟨rfl, (c7_enhance_alpha_preserved rgbaSample rfl).2.2 0 0⟩

/-- C8: every stage preserves the input dimensions, and any image the
slider compositor returns has `before`'s dimensions regardless of
`after`'s (`after` is resized to `before`'s size first). -/
theorem c8_dimension_preservation :
    (∀ im, (remove_white_background im).width = im.width ∧
      (remove_white_background im).height = im.height) ∧
    (∀ im, (enhance_colors im).width = im.width ∧
      (enhance_colors im).height = im.height) ∧
    (∀ im, (create_depth_map im).width = im.width ∧
      (create_depth_map im).height = im.height) ∧
    (∀ im, (create_3d_effect im).width = im.width ∧
      (create_3d_effect im).height = im.height) ∧
    (∀ b a s im, create_before_after_comparison b a s = Except.ok im →
      im.width = b.width ∧ im.height = b.height) := by
  refine ⟨fun _ => ⟨rfl, rfl⟩, fun _ => ⟨rfl, rfl⟩, fun _ => ⟨rfl, rfl⟩,
    fun _ => ⟨rfl, rfl⟩, fun b a s im h => ?_⟩
  unfold create_before_after_comparison at h
  cases hcrop : crop (resize a b.width b.height) 0 0 s (b.height : Int) with
  | error e =>
    rw [hcrop] at h
    cases h
  | ok cropped =>
    rw [hcrop] at h
    have hd := pasteMask_ok _ _ _ _ _ _ h
    exact ⟨hd.2.1, hd.2.2⟩

/-- C8 (witness): the slider clause instantiated at the 10x10 inputs and
split 10, the one split at which an image is returned. -/
theorem c8_witness :
    (create_before_after_comparison red10 blue10 10).map Img.width =
      Except.ok 10 := by
  obtain ⟨im, him⟩ : ∃ im, create_before_after_comparison red10 blue10 10 =
      Except.ok im := ⟨_, rfl⟩
  have hw := (c8_dimension_preservation.2.2.2.2 red10 blue10 10 im him).1
  rw [him]
  exact congrArg Except.ok hw

/-- C9 (counterexample): for an RGBA `before`, `compare_slider` at
`split_x = 0` does not return `before` with its alpha dropped: it
returns no image at all (the masked paste raises, since the 1x1 mask
does not match the 0x1 cropped region). -/
theorem c9_counterexample :
    ¬ isOk (create_before_after_comparison rgbaSample blue1 0) :=
  fun h => h

/-- C9 (amended): every image `compare_slider` returns is a 3-channel
RGB image (source alpha channels never survive into the output), but for
an RGBA `before` and `split_x = 0` no image is returned at all: the call
fails with the masked-paste size mismatch instead of producing `before`
with alpha dropped. -/
theorem c9_output_rgb :
    (∀ b a s im, create_before_after_comparison b a s = Except.ok im →
      im.mode = Mode.RGB) ∧
    create_before_after_comparison rgbaSample blue1 0 =
      Except.error PILError.imagesDoNotMatch := by
  refine ⟨fun b a s im h => ?_, rfl⟩
  unfold create_before_after_comparison at h
  cases hcrop : crop (resize a b.width b.height) 0 0 s (b.height : Int) with
  | error e =>
    rw [hcrop] at h
    cases h
  | ok cropped =>
    rw [hcrop] at h
    exact (pasteMask_ok _ _ _ _ _ _ h).1

/-- C9 (witness): the RGB-mode clause instantiated at the 10x10 inputs
and split 10. -/
theorem c9_witness :
    (create_before_after_comparison red10 blue10 10).map Img.mode =
      Except.ok Mode.RGB := by
  obtain ⟨im, him⟩ : ∃ im, create_before_after_comparison red10 blue10 10 =
      Except.ok im := ⟨_, rfl⟩
  have hm := c9_output_rgb.1 red10 blue10 10 im him
  rw [him]
  exact congrArg Except.ok hm

/-- C10: `create_3d_effect` filters every band independently, the alpha
band included: the output alpha at each pixel is the 0.5/0.5 blend of
the emboss-filtered and edge-filtered alpha planes, and on a fully
opaque 3x3 RGBA image the centre output alpha is 64, not the input's
255 — input alpha is not preserved. -/
theorem c10_effect_filters_alpha :
    (∀ im x y, ((create_3d_effect im).pix x y).a =
      blendChannel (1 / 2)
        ((filter3x3 128 (-1) 0 0 0 1 0 0 0 0 im).pix x y).a
        ((filter3x3 0 (-1) (-1) (-1) (-1) 8 (-1) (-1) (-1) (-1) im).pix x y).a) ∧
    ((create_3d_effect opq3).pix 1 1).a ≠ (opq3.pix 1 1).a := by
  constructor
  · intro im x y
    rfl
  · have hE : ((filter3x3 128 (-1) 0 0 0 1 0 0 0 0 opq3).pix 1 1).a =
        (128 : Fin 256) := by decide
    have hF : ((filter3x3 0 (-1) (-1) (-1) (-1) 8 (-1) (-1) (-1) (-1) opq3).pix 1 1).a =
        (0 : Fin 256) := by decide
    have h0 : ((create_3d_effect opq3).pix 1 1).a =
        blendChannel (1 / 2)
          ((filter3x3 128 (-1) 0 0 0 1 0 0 0 0 opq3).pix 1 1).a
          ((filter3x3 0 (-1) (-1) (-1) (-1) 8 (-1) (-1) (-1) (-1) opq3).pix 1 1).a := rfl
    rw [h0, hE, hF]
    intro heq
    have hval := congrArg Fin.val heq
    rw [blendChannel_half_val] at hval
    exact absurd hval (by decide)

end ImgPipe
